import Mathlib

/-!
Verification development for `Acorn_Archimedes_Stroke_Synth.py`.

The script is a batch pipeline: SMOTE-based synthetic data generation for a
two-class stroke dataset, schema repair of the generated rows (one-hot groups,
integer rounding, binary clip-and-round), nearest-neighbour based duplicate
removal and distance trimming, per-class resampling back to the original class
counts, and a model comparison.

Numbers are embedded as `ℚ` (the script works with float64 data; all the
properties of interest here are about counting, dataflow and exact structural
constraints, none about float rounding).  Sources of randomness (SMOTE's
interpolation draws, `DataFrame.sample` permutations, the train/test split) are
embedded as explicit oracle parameters: a random draw becomes a function
argument, and "is a permutation" becomes a hypothesis where a theorem needs it.

External collaborators are embedded from their documented behaviour:

* `imblearn.over_sampling.SMOTE.fit_resample` with a dict sampling strategy
  (per-class final counts): it validates that every requested class count is at
  least the existing count (otherwise `ValueError`), skips a class whose
  requested count equals its existing count, fits a `k_neighbors + 1 = 6`
  nearest-neighbour search on the members of every class that needs new points
  (raising `ValueError` when the class has fewer members than neighbours
  requested), generates the missing points by interpolation, and
  returns the original rows followed by the new synthetic rows.
* `sklearn.preprocessing.StandardScaler`: per-column mean and population
  standard deviation on the fit data; columns with zero variance get scale 1.
* `pandas.DataFrame.iterrows`: yields row *copies*; writing into a yielded row
  does not modify the source frame.
* `pandas.DataFrame.sample(frac=1)` / `.sample(n)`: a uniformly random
  permutation of the rows / `n` rows drawn without replacement (`ValueError`
  when `n` exceeds the population).
* assigning a plain list to a `DataFrame` column stores the values
  positionally, ignoring the frame's (possibly permuted) index.
-/

/-- Count of records with label `c`, as in `np.sum(y == c)`. -/
def countLabel (y : List ℚ) (c : ℚ) : Nat :=
  (y.filter (fun v => v = c)).length

/-- SMOTE's default `k_neighbors`. -/
def smoteKNeighbors : Nat := 5

/-- The `ValueError` raised by imblearn's sampling-strategy validation when a
class named in the dict is absent from `y`. -/
def smoteMissingClassMsg : String :=
  "ValueError: the target class is missing from the data"

/-- The `ValueError` raised by imblearn's sampling-strategy validation when a
requested final class count is below the existing count. -/
def smoteTargetTooSmallMsg : String :=
  "ValueError: with over-sampling the requested count must be at least the original count"

/-- The `ValueError` raised by the nearest-neighbour fit inside SMOTE when a class
that needs new points has fewer members than `k_neighbors + 1`.  This is the
concrete realisation of the spec error `InsufficientClassSamplesError`. -/
def smoteTooFewNeighborsMsg : String :=
  "ValueError: expected n_neighbors to be at most the number of class samples"

/-- Model of `SMOTE(sampling_strategy={0: n0, 1: n1}).fit_resample(X, y)` for a
two-class label column, from the library's documented behaviour (see the file
header).  `gen c i` is the oracle for the `i`-th randomly interpolated feature
vector of class `c`.  The output is the original data followed by the new
synthetic rows of class 0 and then of class 1, mirroring the library's
vstack order. -/
def smoteFitResample (gen : ℚ → Nat → List ℚ) (X : List (List ℚ)) (y : List ℚ)
    (n0 n1 : ℤ) : Except String (List (List ℚ) × List ℚ) :=
  let c0 : ℤ := countLabel y 0
  let c1 : ℤ := countLabel y 1
  if c0 = 0 ∨ c1 = 0 then .error smoteMissingClassMsg
  else if n0 < c0 ∨ n1 < c1 then .error smoteTargetTooSmallMsg
  else if 0 < n0 - c0 ∧ c0 < smoteKNeighbors + 1 then .error smoteTooFewNeighborsMsg
  else if 0 < n1 - c1 ∧ c1 < smoteKNeighbors + 1 then .error smoteTooFewNeighborsMsg
  else
    .ok (X ++ (List.range (n0 - c0).toNat).map (gen 0)
            ++ (List.range (n1 - c1).toNat).map (gen 1),
         y ++ List.replicate (n0 - c0).toNat 0 ++ List.replicate (n1 - c1).toNat 1)

/-- Function `make_synthetic_data_smote(X, y, number_of_samples)` from the source: adds
the current class counts to the requested numbers of synthetic samples, hands
the sums to SMOTE as final class counts, and returns only the tail of the
resampled data beyond the original rows (`X_resampled[len(X):]`). -/
def make_synthetic_data_smote (gen : ℚ → Nat → List ℚ) (X : List (List ℚ))
    (y : List ℚ) (number_of_samples : ℤ × ℤ) :
    Except String (List (List ℚ) × List ℚ) :=
  let c0 : ℤ := countLabel y 0
  let c1 : ℤ := countLabel y 1
  match smoteFitResample gen X y (number_of_samples.1 + c0) (number_of_samples.2 + c1) with
  | .error e => .error e
  | .ok p => .ok (p.1.drop X.length, p.2.drop y.length)

theorem countLabel_append (y z : List ℚ) (c : ℚ) :
    countLabel (y ++ z) c = countLabel y c + countLabel z c := by
  simp [countLabel, List.filter_append]

theorem countLabel_replicate_self (n : Nat) (c : ℚ) :
    countLabel (List.replicate n c) c = n := by
  simp [countLabel, List.filter_replicate]

theorem countLabel_replicate_ne (n : Nat) (a c : ℚ) (h : a ≠ c) :
    countLabel (List.replicate n a) c = 0 := by
  simp [countLabel, List.filter_replicate, h]

/-- On inputs that pass all of SMOTE's checks, `make_synthetic_data_smote`
succeeds and returns exactly the synthetic tail. -/
theorem make_synthetic_data_smote_ok (gen : ℚ → Nat → List ℚ)
    (X : List (List ℚ)) (y : List ℚ) (ns : ℤ × ℤ)
    (h0 : 0 < countLabel y 0) (h1 : 0 < countLabel y 1)
    (hn0 : 0 ≤ ns.1) (hn1 : 0 ≤ ns.2)
    (hk0 : ns.1 = 0 ∨ smoteKNeighbors + 1 ≤ countLabel y 0)
    (hk1 : ns.2 = 0 ∨ smoteKNeighbors + 1 ≤ countLabel y 1) :
    make_synthetic_data_smote gen X y ns =
      .ok ((List.range ns.1.toNat).map (gen 0) ++ (List.range ns.2.toNat).map (gen 1),
           List.replicate ns.1.toNat 0 ++ List.replicate ns.2.toNat 1) := by
  have hk0' : ns.1 = 0 ∨ 6 ≤ countLabel y 0 := by simpa [smoteKNeighbors] using hk0
  have hk1' : ns.2 = 0 ∨ 6 ≤ countLabel y 1 := by simpa [smoteKNeighbors] using hk1
  have en0 : (ns.1 + (countLabel y 0 : ℤ) - (countLabel y 0 : ℤ)).toNat = ns.1.toNat := by
    omega
  have en1 : (ns.2 + (countLabel y 1 : ℤ) - (countLabel y 1 : ℤ)).toNat = ns.2.toNat := by
    omega
  unfold make_synthetic_data_smote smoteFitResample
  simp only [smoteKNeighbors]
  split_ifs with hA hB hC hD
  · exfalso; omega
  · exfalso; omega
  · exfalso; omega
  · exfalso; omega
  · dsimp only
    rw [en0, en1, List.append_assoc X, List.drop_left, List.append_assoc y, List.drop_left]

/-- A trivial interpolation oracle, used to instantiate concrete calls. -/
def genNil : ℚ → Nat → List ℚ := fun _ _ => []

/-- C1, amended.  On every call that returns, the number of synthetic records
of class `c` is exactly the final class count handed to SMOTE
(`number_of_samples[c] + existing`) minus the existing count of class `c`; a
zero difference yields zero synthetic records of that class.  (A strictly
negative difference never returns: SMOTE rejects it, see
`c1_counterexample`.) -/
theorem c1_synthetic_counts (gen : ℚ → Nat → List ℚ) (X : List (List ℚ))
    (y : List ℚ) (ns : ℤ × ℤ)
    (h0 : 0 < countLabel y 0) (h1 : 0 < countLabel y 1)
    (hn0 : 0 ≤ ns.1) (hn1 : 0 ≤ ns.2)
    (hk0 : ns.1 = 0 ∨ smoteKNeighbors + 1 ≤ countLabel y 0)
    (hk1 : ns.2 = 0 ∨ smoteKNeighbors + 1 ≤ countLabel y 1) :
    ∃ Xs ys, make_synthetic_data_smote gen X y ns = .ok (Xs, ys) ∧
      countLabel ys 0 = ((ns.1 + countLabel y 0) - countLabel y 0).toNat ∧
      countLabel ys 1 = ((ns.2 + countLabel y 1) - countLabel y 1).toNat ∧
      Xs.length = ns.1.toNat + ns.2.toNat ∧ ys.length = ns.1.toNat + ns.2.toNat := by
  refine ⟨_, _, make_synthetic_data_smote_ok gen X y ns h0 h1 hn0 hn1 hk0 hk1, ?_, ?_, ?_, ?_⟩
  · rw [countLabel_append, countLabel_replicate_self,
        countLabel_replicate_ne _ _ _ (by norm_num)]
    omega
  · rw [countLabel_append, countLabel_replicate_ne _ _ _ (by norm_num),
        countLabel_replicate_self]
    omega
  · simp
  · simp

/-- C1, scenario witness: 700 real class-0 records and 300 real class-1
records, final class counts 1400 and 600 requested from SMOTE (i.e. 700 and
300 synthetic samples): exactly 700 class-0 and 300 class-1 synthetic records
are produced. -/
theorem c1_synthetic_counts_witness :
    (0 < countLabel (List.replicate 700 (0:ℚ) ++ List.replicate 300 1) 0) ∧
    (0 < countLabel (List.replicate 700 (0:ℚ) ++ List.replicate 300 1) 1) ∧
    (∃ Xs ys,
      make_synthetic_data_smote genNil []
        (List.replicate 700 (0:ℚ) ++ List.replicate 300 1) ((700 : ℤ), (300 : ℤ)) = .ok (Xs, ys) ∧
      countLabel ys 0 =
        (((700 : ℤ) + countLabel (List.replicate 700 (0:ℚ) ++ List.replicate 300 1) 0) -
          countLabel (List.replicate 700 (0:ℚ) ++ List.replicate 300 1) 0).toNat ∧
      countLabel ys 1 =
        (((300 : ℤ) + countLabel (List.replicate 700 (0:ℚ) ++ List.replicate 300 1) 1) -
          countLabel (List.replicate 700 (0:ℚ) ++ List.replicate 300 1) 1).toNat ∧
      Xs.length = (700 : ℤ).toNat + (300 : ℤ).toNat ∧
      ys.length = (700 : ℤ).toNat + (300 : ℤ).toNat) := by
  have hc0 : countLabel (List.replicate 700 (0:ℚ) ++ List.replicate 300 1) 0 = 700 := by
    rw [countLabel_append, countLabel_replicate_self,
        countLabel_replicate_ne _ _ _ (by norm_num)]
  have hc1 : countLabel (List.replicate 700 (0:ℚ) ++ List.replicate 300 1) 1 = 300 := by
    rw [countLabel_append, countLabel_replicate_ne _ _ _ (by norm_num),
        countLabel_replicate_self]
  refine ⟨by omega, by omega, ?_⟩
  exact c1_synthetic_counts genNil [] _ ((700 : ℤ), (300 : ℤ))
    (by omega) (by omega) (by norm_num) (by norm_num)
    (by right; rw [hc0]; norm_num [smoteKNeighbors])
    (by right; rw [hc1]; norm_num [smoteKNeighbors])

/-- C1, counterexample to the claim as stated.  The claim says a non-positive
difference `classTargetCounts[c] - existing` yields zero synthetic records for
class `c`.  With 2 real class-0 and 2 real class-1 records and a requested
class-0 target of 1 (one below the existing count, i.e. difference -1), the
call does not return zero class-0 records: SMOTE's sampling-strategy
validation rejects the request with a `ValueError`, so nothing is returned at
all. -/
theorem c1_counterexample :
    make_synthetic_data_smote genNil [[0], [1], [2], [3]] [0, 0, 1, 1] ((-1 : ℤ), (0 : ℤ)) =
      .error smoteTargetTooSmallMsg := by
  rfl

/-- C9, amended.  `make_synthetic_data_smote` fails whenever some class has
fewer than 2 real members AND the number of synthetic samples requested for
that class is positive.  (When the requested number is zero, SMOTE skips the
class and returns zero synthetic points for it without error, see
`c9_counterexample`; so "fewer than 2 real members" alone does not force an
error.) -/
theorem c9_insufficient_class_error (gen : ℚ → Nat → List ℚ) (X : List (List ℚ))
    (y : List ℚ) (ns : ℤ × ℤ)
    (h : (countLabel y 0 < 2 ∧ 0 < ns.1) ∨ (countLabel y 1 < 2 ∧ 0 < ns.2)) :
    ∃ e, make_synthetic_data_smote gen X y ns = .error e := by
  unfold make_synthetic_data_smote smoteFitResample
  simp only [smoteKNeighbors]
  split_ifs with hA hB hC hD
  · exact ⟨_, rfl⟩
  · exact ⟨_, rfl⟩
  · exact ⟨_, rfl⟩
  · exact ⟨_, rfl⟩
  · exfalso
    omega

/-- C9, witness: a single class-1 real record with one synthetic class-1
sample requested raises an error. -/
theorem c9_insufficient_class_error_witness :
    ((countLabel [(0:ℚ), 0, 0, 0, 0, 0, 1] 0 < 2 ∧ 0 < (0:ℤ)) ∨
      (countLabel [(0:ℚ), 0, 0, 0, 0, 0, 1] 1 < 2 ∧ 0 < (5:ℤ))) ∧
    (∃ e, make_synthetic_data_smote genNil [[0], [1], [2], [3], [4], [5], [6]]
      [(0:ℚ), 0, 0, 0, 0, 0, 1] ((0 : ℤ), (5 : ℤ)) = .error e) :=
  ⟨Or.inr ⟨by decide, by norm_num⟩,
   c9_insufficient_class_error genNil [[0], [1], [2], [3], [4], [5], [6]]
     [(0:ℚ), 0, 0, 0, 0, 0, 1] ((0 : ℤ), (5 : ℤ))
     (Or.inr ⟨by decide, by norm_num⟩)⟩

/-- C9, counterexample to the claim as stated.  The claim says the error is
raised whenever some class present in `classTargetCounts` has fewer than 2
real members.  Here class 1 has exactly 1 real member, but the requested
synthetic count for it is 0 (its entry in `classTargetCounts` equals its
existing count), and the call succeeds, silently returning zero synthetic
points for that class instead of raising. -/
theorem c9_counterexample :
    make_synthetic_data_smote genNil [[0], [1]] [0, 1] ((0 : ℤ), (0 : ℤ)) =
      .ok ([], []) := by
  rfl

/-- The scanning loop of `np.argmax`: carries the index `b` and value `m` of
the best element seen so far, with the `Nat` argument the index of the head of
the remaining list; the best element is replaced only on a strictly greater
value, so ties keep the earliest index. -/
def argmaxGo : List ℚ → Nat → Nat → ℚ → Nat
  | [], _, b, _ => b
  | x :: xs, i, b, m => if m < x then argmaxGo xs (i + 1) i x else argmaxGo xs (i + 1) b m

/-- Model of `np.argmax`: index of the first occurrence of the maximum (0 on the empty
list, where NumPy raises; the script only ever applies it to nonempty one-hot
groups). -/
def argmax : List ℚ → Nat
  | [] => 0
  | x :: xs => argmaxGo xs 1 0 x

theorem argmaxGo_spec (xs : List ℚ) : ∀ (pre : List ℚ) (b : Nat) (m : ℚ),
    b < pre.length → pre.getD b 0 = m →
    (∀ t < pre.length, pre.getD t 0 ≤ m) →
    (∀ t < b, pre.getD t 0 < m) →
    argmaxGo xs pre.length b m < (pre ++ xs).length ∧
    (∀ t < (pre ++ xs).length,
      (pre ++ xs).getD t 0 ≤ (pre ++ xs).getD (argmaxGo xs pre.length b m) 0) ∧
    (∀ t < argmaxGo xs pre.length b m,
      (pre ++ xs).getD t 0 < (pre ++ xs).getD (argmaxGo xs pre.length b m) 0) := by
  induction xs with
  | nil =>
    intro pre b m hb hm hub hstr
    simp only [argmaxGo, List.append_nil]
    exact ⟨hb, fun t ht => by rw [hm]; exact hub t ht,
      fun t ht => by rw [hm]; exact hstr t ht⟩
  | cons x xs2 ih =>
    intro pre b m hb hm hub hstr
    have hlen : (pre ++ [x]).length = pre.length + 1 := by simp
    have hassoc : (pre ++ [x]) ++ xs2 = pre ++ x :: xs2 := by simp
    have hgetx : (pre ++ [x]).getD pre.length 0 = x := by
      simp [List.getD_eq_getElem?_getD, List.getElem?_append_right]
    have hgetlt : ∀ t < pre.length, (pre ++ [x]).getD t 0 = pre.getD t 0 :=
      fun t ht => List.getD_append _ _ _ _ ht
    by_cases hc : m < x
    · have hub' : ∀ t < (pre ++ [x]).length, (pre ++ [x]).getD t 0 ≤ x := by
        intro t ht
        rw [hlen] at ht
        rcases Nat.lt_succ_iff_lt_or_eq.mp ht with h' | h'
        · rw [hgetlt t h']
          exact le_of_lt (lt_of_le_of_lt (hub t h') hc)
        · subst h'
          rw [hgetx]
      have hstr' : ∀ t < pre.length, (pre ++ [x]).getD t 0 < x := by
        intro t ht
        rw [hgetlt t ht]
        exact lt_of_le_of_lt (hub t ht) hc
      have H := ih (pre ++ [x]) pre.length x (by rw [hlen]; omega) hgetx hub' hstr'
      rw [hassoc, hlen] at H
      simpa only [argmaxGo, if_pos hc] using H
    · have hmb : (pre ++ [x]).getD b 0 = m := by rw [hgetlt b hb]; exact hm
      have hub' : ∀ t < (pre ++ [x]).length, (pre ++ [x]).getD t 0 ≤ m := by
        intro t ht
        rw [hlen] at ht
        rcases Nat.lt_succ_iff_lt_or_eq.mp ht with h' | h'
        · rw [hgetlt t h']
          exact hub t h'
        · subst h'
          rw [hgetx]
          exact not_lt.mp hc
      have hstr' : ∀ t < b, (pre ++ [x]).getD t 0 < m := by
        intro t ht
        rw [hgetlt t (lt_trans ht hb)]
        exact hstr t ht
      have H := ih (pre ++ [x]) b m (by rw [hlen]; omega) hmb hub' hstr'
      rw [hassoc, hlen] at H
      simpa only [argmaxGo, if_neg hc] using H

/-- The three defining properties of `np.argmax` on a nonempty list: the
result is in range, it indexes a maximal element, and every strictly earlier
element is strictly smaller (ties broken in favour of the first maximum). -/
theorem argmax_spec (l : List ℚ) (h : l ≠ []) :
    argmax l < l.length ∧
    (∀ t < l.length, l.getD t 0 ≤ l.getD (argmax l) 0) ∧
    (∀ t < argmax l, l.getD t 0 < l.getD (argmax l) 0) := by
  cases l with
  | nil => exact absurd rfl h
  | cons x xs =>
    have H := argmaxGo_spec xs [x] 0 x (by simp) (by simp)
      (by
        intro t ht
        have ht0 : t = 0 := by simpa using ht
        subst ht0
        simp)
      (by intro t ht; exact absurd ht (by omega))
    simpa only [List.singleton_append, List.length_singleton] using H

/-- The value of `argmax` is determined by the first-maximum property. -/
theorem argmax_eq_of (l : List ℚ) (A : Nat) (hA : A < l.length)
    (hub : ∀ t < l.length, l.getD t 0 ≤ l.getD A 0)
    (hstr : ∀ t < A, l.getD t 0 < l.getD A 0) : argmax l = A := by
  have hne : l ≠ [] := by
    cases l
    · simp at hA
    · simp
  obtain ⟨h1, h2, h3⟩ := argmax_spec l hne
  rcases lt_trichotomy (argmax l) A with h | h | h
  · exact absurd (h2 A hA) (not_le.mpr (hstr _ h))
  · exact h
  · exact absurd (hub _ h1) (not_le.mpr (h3 A h))

/-- Function `make_one_hot(x)` from the source: multiplies the whole vector by 0 and
sets the entry at `np.argmax(x)` to 1; equivalently, the indicator vector of
the first maximum. -/
def make_one_hot (l : List ℚ) : List ℚ :=
  (List.range l.length).map (fun j => if j = argmax l then 1 else 0)

theorem getD_range_map (f : Nat → ℚ) (n t : Nat) (ht : t < n) :
    ((List.range n).map f).getD t 0 = f t := by
  simp [List.getD_eq_getElem?_getD, List.getElem?_map, List.getElem?_range ht]

/-- C4: `make_one_hot` sets the member carrying the (first) maximum raw value
to 1.0 and every other member to 0.0, for arbitrary raw inputs; the chosen
index carries a maximal value and strictly exceeds every entry before it, so
ties go to the first member in group order. -/
theorem c4_one_hot_projection (l : List ℚ) (h : l ≠ []) :
    (make_one_hot l).length = l.length ∧
    (make_one_hot l).getD (argmax l) 0 = 1 ∧
    (∀ j < l.length, j ≠ argmax l → (make_one_hot l).getD j 0 = 0) ∧
    (∀ j < l.length, l.getD j 0 ≤ l.getD (argmax l) 0) ∧
    (∀ j < argmax l, l.getD j 0 < l.getD (argmax l) 0) := by
  obtain ⟨h1, h2, h3⟩ := argmax_spec l h
  refine ⟨by simp [make_one_hot], ?_, ?_, h2, h3⟩
  · rw [make_one_hot, getD_range_map _ _ _ h1, if_pos rfl]
  · intro j hj hne
    rw [make_one_hot, getD_range_map _ _ _ hj, if_neg hne]

/-- C4, witness: on the vector `[-2, 7, 7, 0]` (a negative entry and a tie)
the projection puts the 1 at index `argmax = 1`, the first of the two tied
maxima. -/
theorem c4_one_hot_projection_witness :
    (([(-2 : ℚ), 7, 7, 0] : List ℚ) ≠ []) ∧
    ((make_one_hot [(-2 : ℚ), 7, 7, 0]).length = ([(-2 : ℚ), 7, 7, 0] : List ℚ).length ∧
      (make_one_hot [(-2 : ℚ), 7, 7, 0]).getD (argmax [(-2 : ℚ), 7, 7, 0]) 0 = 1 ∧
      (∀ j < ([(-2 : ℚ), 7, 7, 0] : List ℚ).length, j ≠ argmax [(-2 : ℚ), 7, 7, 0] →
        (make_one_hot [(-2 : ℚ), 7, 7, 0]).getD j 0 = 0) ∧
      (∀ j < ([(-2 : ℚ), 7, 7, 0] : List ℚ).length,
        ([(-2 : ℚ), 7, 7, 0] : List ℚ).getD j 0 ≤
          ([(-2 : ℚ), 7, 7, 0] : List ℚ).getD (argmax [(-2 : ℚ), 7, 7, 0]) 0) ∧
      (∀ j < argmax [(-2 : ℚ), 7, 7, 0],
        ([(-2 : ℚ), 7, 7, 0] : List ℚ).getD j 0 <
          ([(-2 : ℚ), 7, 7, 0] : List ℚ).getD (argmax [(-2 : ℚ), 7, 7, 0]) 0)) :=
  ⟨by decide, c4_one_hot_projection [(-2 : ℚ), 7, 7, 0] (by decide)⟩

/-- Round to the nearest integer with ties to even, the rounding used by
`numpy`/`pandas` `.round(0)`. -/
def roundHalfEven (q : ℚ) : ℤ :=
  if q - q.floor < 1/2 then q.floor
  else if 1/2 < q - q.floor then q.floor + 1
  else if q.floor % 2 = 0 then q.floor else q.floor + 1

/-- Model of `np.clip(x, 0, 1)`. -/
def clip01 (q : ℚ) : ℚ := max 0 (min q 1)

theorem ratFloor_eq_intFloor (q : ℚ) : (q.floor : ℤ) = ⌊q⌋ := rfl

theorem roundHalfEven_intCast (k : ℤ) : roundHalfEven (k : ℚ) = k := by
  have hfl : ((k : ℚ)).floor = k := by
    rw [ratFloor_eq_intFloor, Int.floor_intCast]
  rw [roundHalfEven, hfl]
  norm_num

theorem roundHalfEven_mem01 (q : ℚ) (h0 : 0 ≤ q) (h1 : q ≤ 1) :
    roundHalfEven q = 0 ∨ roundHalfEven q = 1 := by
  have hfl0 : (0 : ℤ) ≤ q.floor := by
    rw [ratFloor_eq_intFloor]
    exact Int.floor_nonneg.mpr h0
  have hfl1 : q.floor ≤ 1 := by
    rw [ratFloor_eq_intFloor]
    calc ⌊q⌋ ≤ ⌊(1 : ℚ)⌋ := Int.floor_le_floor h1
    _ = 1 := by norm_num
  have hle : (q.floor : ℚ) ≤ q := by
    rw [ratFloor_eq_intFloor]
    exact Int.floor_le q
  rw [roundHalfEven]
  split_ifs with ha hb hc
  · omega
  · have hfl : q.floor = 0 := by
      by_contra hne
      have hf1 : q.floor = 1 := by omega
      have hq1 : q = 1 := by
        refine le_antisymm h1 ?_
        rw [hf1] at hle
        exact_mod_cast hle
      rw [hf1] at hb
      rw [hq1] at hb
      norm_num at hb
    omega
  · omega
  · exfalso
    have hf1 : q.floor = 1 := by omega
    have hq1 : q = 1 := by
      refine le_antisymm h1 ?_
      rw [hf1] at hle
      exact_mod_cast hle
    rw [hf1] at ha
    rw [hq1] at ha
    norm_num at ha

theorem clip01_mem_Icc (q : ℚ) : 0 ≤ clip01 q ∧ clip01 q ≤ 1 := by
  constructor
  · exact le_max_left 0 _
  · rw [clip01]
    rcases max_cases (0:ℚ) (min q 1) with ⟨h, _⟩ | ⟨h, _⟩
    · rw [h]; norm_num
    · rw [h]; exact min_le_right q 1

theorem clip01_zero : clip01 0 = 0 := by norm_num [clip01]

theorem clip01_one : clip01 1 = 1 := by norm_num [clip01]

/-- The binary-column repair of the script: `np.clip(x, 0, 1).round(0)`. -/
def binRepair (q : ℚ) : ℚ := (roundHalfEven (clip01 q) : ℚ)

theorem roundHalfEven_zero : roundHalfEven (0 : ℚ) = 0 := by
  simpa using roundHalfEven_intCast 0

theorem roundHalfEven_one : roundHalfEven (1 : ℚ) = 1 := by
  simpa using roundHalfEven_intCast 1

theorem binRepair_mem01 (q : ℚ) : binRepair q = 0 ∨ binRepair q = 1 := by
  obtain ⟨h0, h1⟩ := clip01_mem_Icc q
  rcases roundHalfEven_mem01 _ h0 h1 with h | h
  · left; rw [binRepair, h]; norm_num
  · right; rw [binRepair, h]; norm_num

theorem binRepair_idem (q : ℚ) : binRepair (binRepair q) = binRepair q := by
  rcases binRepair_mem01 q with h | h <;> rw [h]
  · rw [binRepair, clip01_zero, roundHalfEven_zero]
    norm_num
  · rw [binRepair, clip01_one, roundHalfEven_one]
    norm_num

/-- Static description of the column roles used by the script (lines 140-153):
the one-hot groups (`gender_*`, `work_type_*`, `residence_type_*`,
`smoking_status_*`), the integer columns (`age`, `bmi`) and the binary columns
(`hypertension`, `heart_disease`, `ever_married`), with columns identified by
position. -/
structure Schema where
  oneHotGroups : List (List Nat)
  integerCols : List Nat
  binaryCols : List Nat

/-- One repaired value.  For a column inside a one-hot group this is the
`make_one_hot` projection of the group's raw values (the column gets 1 exactly
when its position within the group is the group's `argmax`); integer columns
are rounded; binary columns are clipped to `[0,1]` and rounded; every other
column is untouched. -/
def repairValue (s : Schema) (v : Nat → ℚ) (i : Nat) : ℚ :=
  match s.oneHotGroups.find? (fun g => decide (i ∈ g)) with
  | some g => if g.indexOf i = argmax (g.map v) then 1 else 0
  | none =>
    if i ∈ s.integerCols then (roundHalfEven (v i) : ℚ)
    else if i ∈ s.binaryCols then (roundHalfEven (clip01 (v i)) : ℚ)
    else v i

/-- The full `repair` transform of spec section 4.3, assembled from the
script's three repair passes (`make_one_hot` per group, integer rounding,
binary clip-and-round). -/
def repair (s : Schema) (v : Nat → ℚ) : Nat → ℚ :=
  fun i => repairValue s v i

/-- The repair that the script module level actually performs on `synth_df`
(lines 165-181): the one-hot pass iterates `synth_df.iterrows()` and assigns
into the yielded rows, but `iterrows` yields copies, so those assignments
never reach `synth_df` — the pass is a no-op on the frame.  Only the integer
rounding and the binary clip-and-round (plain column assignments) take
effect; one-hot columns keep their raw interpolated values. -/
def moduleRepairValue (s : Schema) (v : Nat → ℚ) (i : Nat) : ℚ :=
  if i ∈ s.integerCols then (roundHalfEven (v i) : ℚ)
  else if i ∈ s.binaryCols then (roundHalfEven (clip01 (v i)) : ℚ)
  else v i

/-- With pairwise-disjoint groups, the first group found to contain `i` is the
(unique) group containing `i`. -/
theorem find?_group_eq (groups : List (List Nat)) (g : List Nat)
    (hp : groups.Pairwise List.Disjoint) (hg : g ∈ groups) (i : Nat) (hi : i ∈ g) :
    groups.find? (fun h => decide (i ∈ h)) = some g := by
  induction groups with
  | nil => exact absurd hg (List.not_mem_nil g)
  | cons a tl ih =>
    rcases List.pairwise_cons.mp hp with ⟨hdis, hp2⟩
    rcases List.mem_cons.mp hg with hga | hgt
    · subst hga
      exact List.find?_cons_of_pos _ (by simpa using hi)
    · have hna : i ∉ a := fun hia => hdis g hgt hia hi
      rw [List.find?_cons_of_neg _ (by simpa using hna)]
      exact ih hp2 hgt

theorem indexOf_getD_of_nodup (l : List Nat) (hnd : l.Nodup) :
    ∀ j, j < l.length → l.indexOf (l.getD j 0) = j := by
  induction l with
  | nil => intro j hj; simp at hj
  | cons a tl ih =>
    intro j hj
    rcases List.nodup_cons.mp hnd with ⟨hna, hnd2⟩
    cases j with
    | zero => simp [List.indexOf_cons_self]
    | succ j2 =>
      have hj2 : j2 < tl.length := by simpa using hj
      have hmem : tl.getD j2 0 ∈ tl := by
        rw [List.getD_eq_getElem _ _ hj2]
        exact List.getElem_mem hj2
      have hne : a ≠ tl.getD j2 0 := fun he => hna (he ▸ hmem)
      show (a :: tl).indexOf (tl.getD j2 0) = j2 + 1
      rw [List.indexOf_cons_ne _ hne, ih hnd2 j2 hj2]

theorem argmax_indicator (n A : Nat) (hA : A < n) :
    argmax ((List.range n).map (fun j => if j = A then (1 : ℚ) else 0)) = A := by
  have hlen : ((List.range n).map (fun j => if j = A then (1 : ℚ) else 0)).length = n := by
    simp
  refine argmax_eq_of _ A (by rw [hlen]; exact hA) ?_ ?_
  · intro t ht
    rw [hlen] at ht
    rw [getD_range_map _ _ _ ht, getD_range_map _ _ _ hA, if_pos rfl]
    split_ifs <;> norm_num
  · intro t ht
    rw [getD_range_map _ _ _ (lt_trans ht hA), getD_range_map _ _ _ hA,
      if_pos rfl, if_neg (Nat.ne_of_lt ht)]
    norm_num

theorem repair_eq_of_find?_some (s : Schema) (v : Nat → ℚ) (i : Nat) (g : List Nat)
    (hf : s.oneHotGroups.find? (fun h => decide (i ∈ h)) = some g) :
    repair s v i = if g.indexOf i = argmax (g.map v) then 1 else 0 := by
  show repairValue s v i = _
  simp only [repairValue, hf]

theorem repair_eq_of_find?_none (s : Schema) (v : Nat → ℚ) (i : Nat)
    (hf : s.oneHotGroups.find? (fun h => decide (i ∈ h)) = none) :
    repair s v i = if i ∈ s.integerCols then (roundHalfEven (v i) : ℚ)
      else if i ∈ s.binaryCols then (roundHalfEven (clip01 (v i)) : ℚ) else v i := by
  show repairValue s v i = _
  simp only [repairValue, hf]

/-- After one repair pass, the values of a group are exactly the indicator
vector of the group's original `argmax`. -/
theorem map_repair_group (s : Schema) (v : Nat → ℚ) (g : List Nat)
    (hp : s.oneHotGroups.Pairwise List.Disjoint) (hg : g ∈ s.oneHotGroups)
    (hnd : g.Nodup) :
    g.map (repair s v) =
      (List.range g.length).map (fun j => if j = argmax (g.map v) then (1 : ℚ) else 0) := by
  apply List.ext_get (by simp)
  intro t h1 h2
  have htl : t < g.length := by simpa using h1
  have hmem : g.get ⟨t, htl⟩ ∈ g := List.get_mem g t htl
  have hfind := find?_group_eq s.oneHotGroups g hp hg _ hmem
  have hidx : List.indexOf (g.get ⟨t, htl⟩) g = t := by
    have h := indexOf_getD_of_nodup g hnd t htl
    rw [List.getD_eq_getElem _ _ htl] at h
    exact h
  simp only [List.get_eq_getElem, List.getElem_map, List.getElem_range]
  show repair s v (g.get ⟨t, htl⟩) = _
  rw [repair_eq_of_find?_some s v _ g hfind, hidx]

/-- C5: the composite repair (one-hot projection on every group, integer
rounding, binary clip-and-round) is idempotent on every feature vector, for
any schema whose one-hot groups are nonempty, duplicate-free and pairwise
disjoint. -/
theorem c5_repair_idempotent (s : Schema) (v : Nat → ℚ)
    (hp : s.oneHotGroups.Pairwise List.Disjoint)
    (hnd : ∀ g ∈ s.oneHotGroups, g.Nodup)
    (hne : ∀ g ∈ s.oneHotGroups, g ≠ []) :
    repair s (repair s v) = repair s v := by
  funext i
  cases hfind : s.oneHotGroups.find? (fun h => decide (i ∈ h)) with
  | some g =>
    have hg : g ∈ s.oneHotGroups := List.mem_of_find?_eq_some hfind
    have hgne : g ≠ [] := hne g hg
    have hmapne : g.map v ≠ [] := fun he => hgne (List.map_eq_nil_iff.mp he)
    have hAlt : argmax (g.map v) < g.length := by
      have := (argmax_spec (g.map v) hmapne).1
      simpa using this
    rw [repair_eq_of_find?_some s (repair s v) i g hfind,
      repair_eq_of_find?_some s v i g hfind,
      map_repair_group s v g hp hg (hnd g hg), argmax_indicator _ _ hAlt]
  | none =>
    rw [repair_eq_of_find?_none s (repair s v) i hfind]
    simp only [repair_eq_of_find?_none s v i hfind]
    split_ifs with hint hbin
    · norm_num [roundHalfEven_intCast]
    · exact binRepair_idem (v i)
    · rfl

/-- C5, witness: a schema with two one-hot groups, an integer column and a
binary column, and a feature vector with fractional, negative and tied raw
values. -/
theorem c5_repair_idempotent_witness :
    List.Pairwise List.Disjoint (Schema.mk [[0, 1], [2, 3, 4]] [5] [6]).oneHotGroups ∧
    (∀ g ∈ (Schema.mk [[0, 1], [2, 3, 4]] [5] [6]).oneHotGroups, g.Nodup) ∧
    (∀ g ∈ (Schema.mk [[0, 1], [2, 3, 4]] [5] [6]).oneHotGroups, g ≠ []) ∧
    repair (Schema.mk [[0, 1], [2, 3, 4]] [5] [6])
        (repair (Schema.mk [[0, 1], [2, 3, 4]] [5] [6])
          (fun i => [mkRat 7 10, mkRat 3 10, -1, 5, 5, mkRat 23 10, mkRat 1 2].getD i 0)) =
      repair (Schema.mk [[0, 1], [2, 3, 4]] [5] [6])
        (fun i => [mkRat 7 10, mkRat 3 10, -1, 5, 5, mkRat 23 10, mkRat 1 2].getD i 0) := by
  have hp : List.Pairwise List.Disjoint (Schema.mk [[0, 1], [2, 3, 4]] [5] [6]).oneHotGroups := by
    constructor
    · intro g hg
      simp only [List.mem_singleton] at hg
      subst hg
      intro a ha hb
      simp at ha hb
      omega
    · constructor
      · intro g hg
        simp at hg
      · exact List.Pairwise.nil
  have hnd : ∀ g ∈ (Schema.mk [[0, 1], [2, 3, 4]] [5] [6]).oneHotGroups, g.Nodup := by decide
  have hne : ∀ g ∈ (Schema.mk [[0, 1], [2, 3, 4]] [5] [6]).oneHotGroups, g ≠ [] := by decide
  exact ⟨hp, hnd, hne, c5_repair_idempotent _ _ hp hnd hne⟩

/-- C3: evaluation of the module-level repair at a failing input.  SMOTE
interpolation between two valid one-hot pairs `(1,0)` and `(0,1)` can produce
the raw group values `(0.3, 0.7)` (interpolation fraction 0.7).  Because the
`iterrows`-based one-hot pass never writes back into `synth_df`, the emitted
record keeps those raw values: columns 0 and 1 (a one-hot group) are left at
0.3 and 0.7, so no member of the group equals 1 — the claimed invariant
"exactly one member equal to 1 and the rest 0" fails.  The integer column
(2.3 → 2) and the binary column (0.7 → 1) are repaired as claimed. -/
theorem c3_one_hot_columns_not_repaired :
    moduleRepairValue (Schema.mk [[0, 1]] [2] [3])
        (fun i => [mkRat 3 10, mkRat 7 10, mkRat 23 10, mkRat 7 10].getD i 0) 0 = mkRat 3 10 ∧
    moduleRepairValue (Schema.mk [[0, 1]] [2] [3])
        (fun i => [mkRat 3 10, mkRat 7 10, mkRat 23 10, mkRat 7 10].getD i 0) 1 = mkRat 7 10 ∧
    moduleRepairValue (Schema.mk [[0, 1]] [2] [3])
        (fun i => [mkRat 3 10, mkRat 7 10, mkRat 23 10, mkRat 7 10].getD i 0) 2 = 2 ∧
    moduleRepairValue (Schema.mk [[0, 1]] [2] [3])
        (fun i => [mkRat 3 10, mkRat 7 10, mkRat 23 10, mkRat 7 10].getD i 0) 3 = 1 ∧
    ¬ ((moduleRepairValue (Schema.mk [[0, 1]] [2] [3])
          (fun i => [mkRat 3 10, mkRat 7 10, mkRat 23 10, mkRat 7 10].getD i 0) 0 = 1 ∧
        moduleRepairValue (Schema.mk [[0, 1]] [2] [3])
          (fun i => [mkRat 3 10, mkRat 7 10, mkRat 23 10, mkRat 7 10].getD i 0) 1 = 0) ∨
       (moduleRepairValue (Schema.mk [[0, 1]] [2] [3])
          (fun i => [mkRat 3 10, mkRat 7 10, mkRat 23 10, mkRat 7 10].getD i 0) 0 = 0 ∧
        moduleRepairValue (Schema.mk [[0, 1]] [2] [3])
          (fun i => [mkRat 3 10, mkRat 7 10, mkRat 23 10, mkRat 7 10].getD i 0) 1 = 1)) := by
  with_unfolding_all decide

/-- Mean of one feature column, as `StandardScaler` computes it. -/
def colMean (xs : List ℚ) : ℚ := xs.sum / xs.length

/-- Population variance of one feature column (`StandardScaler` uses
`ddof = 0`). -/
def colVar (xs : List ℚ) : ℚ :=
  ((xs.map (fun x => (x - colMean xs) ^ 2)).sum) / xs.length

/-- Per-column scale of `StandardScaler`: the square root of the population
variance, with the zero-variance fallback scale 1.  Square roots of rationals
stand in for float square roots; on the perfect-square variances used in the
concrete instances below the value is exact. -/
def colScale (xs : List ℚ) : ℚ :=
  if colVar xs = 0 then 1 else Rat.sqrt (colVar xs)

/-- The per-feature statistics held by a fitted `StandardScaler`. -/
structure FittedScaler where
  means : List ℚ
  scales : List ℚ

/-- Model of `StandardScaler().fit(X)`: per-column mean and scale. -/
def scalerFit (X : List (List ℚ)) : FittedScaler :=
  ⟨X.transpose.map colMean, X.transpose.map colScale⟩

/-- Model of `sc.transform(X)`: `(x - mean) / scale` feature-wise, using the fitted
statistics. -/
def scalerTransform (sc : FittedScaler) (X : List (List ℚ)) : List (List ℚ) :=
  X.map (fun row => (row.zip (sc.means.zip sc.scales)).map
    (fun p => (p.1 - p.2.1) / p.2.2))

/-- Function `standardise_data(X_train, X_test)` from the source: fits a scaler on the
first argument only and transforms both arguments with it. -/
def standardise_data (X_train X_test : List (List ℚ)) :
    List (List ℚ) × List (List ℚ) :=
  (scalerTransform (scalerFit X_train) X_train,
   scalerTransform (scalerFit X_train) X_test)

/-- The features `model_synth` is fit on at module level (lines 264-271):
`X_synth_std` from `standardise_data(X_synth, X_test)` — the scaler of the
final synthetic-data model is fitted on `X_synth` itself. -/
def modelSynthTrainingFeatures (X_synth X_test : List (List ℚ)) : List (List ℚ) :=
  (standardise_data X_synth X_test).1

/-- The test features used for `model_synth`'s predictions (line 274), from
the same call. -/
def modelSynthTestFeatures (X_synth X_test : List (List ℚ)) : List (List ℚ) :=
  (standardise_data X_synth X_test).2

/-- Modelled from the spec: the features the spec says the synthetic-data
classifier is fit on — the synthetic records transformed by the Standardizer
fitted on the REAL training features. -/
def specSynthTrainingFeatures (X_train X_synth : List (List ℚ)) : List (List ℚ) :=
  scalerTransform (scalerFit X_train) X_synth

theorem colScale_of_var_sq (xs : List ℚ) (r : ℚ) (h : colVar xs = r * r)
    (hr : 0 ≤ r) (hne : r ≠ 0) : colScale xs = r := by
  have hv : colVar xs ≠ 0 := by
    rw [h]
    exact mul_ne_zero hne hne
  rw [colScale, if_neg hv, h, Rat.sqrt_eq, abs_of_nonneg hr]

theorem scalerFit_synth_pair : scalerFit [[(0:ℚ)], [2]] = ⟨[1], [1]⟩ := by
  rw [scalerFit]
  have ht : List.transpose [[(0:ℚ)], [2]] = [[0, 2]] := by decide
  rw [ht]
  simp only [List.map_cons, List.map_nil]
  have hm : colMean [(0:ℚ), 2] = 1 := by norm_num [colMean]
  have hs : colScale [(0:ℚ), 2] = 1 :=
    colScale_of_var_sq _ 1 (by norm_num [colVar, colMean]) (by norm_num) (by norm_num)
  rw [hm, hs]

theorem scalerFit_real_pair : scalerFit [[(0:ℚ)], [8]] = ⟨[4], [4]⟩ := by
  rw [scalerFit]
  have ht : List.transpose [[(0:ℚ)], [8]] = [[0, 8]] := by decide
  rw [ht]
  simp only [List.map_cons, List.map_nil]
  have hm : colMean [(0:ℚ), 8] = 4 := by norm_num [colMean]
  have hs : colScale [(0:ℚ), 8] = 4 :=
    colScale_of_var_sq _ 4 (by norm_num [colVar, colMean]) (by norm_num) (by norm_num)
  rw [hm, hs]

theorem modelSynthTrainingFeatures_pair :
    modelSynthTrainingFeatures [[(0:ℚ)], [2]] [[1]] = [[-1], [1]] := by
  show scalerTransform (scalerFit [[(0:ℚ)], [2]]) [[0], [2]] = _
  rw [scalerFit_synth_pair]
  norm_num [scalerTransform, List.zip]

theorem specSynthTrainingFeatures_pair :
    specSynthTrainingFeatures [[(0:ℚ)], [8]] [[0], [2]] = [[-1], [mkRat (-1) 2]] := by
  rw [specSynthTrainingFeatures, scalerFit_real_pair]
  have hhalf : (mkRat (-1) 2 : ℚ) = -1/2 := by
    rw [Rat.mkRat_eq_div]
    norm_num
  rw [hhalf]
  norm_num [scalerTransform, List.zip]

/-- C2, counterexample to the claim as stated.  With synthetic features
`[[0], [2]]` and real training features `[[0], [8]]`, the features the final
synthetic-data model is actually fit on (`standardise_data(X_synth, X_test)`,
which fits the scaler on `X_synth`) are `[[-1], [1]]`, while the claim says
they are the synthetic features under the REAL-fitted scaler, which gives
`[[-1], [-1/2]]`.  The two differ. -/
theorem c2_counterexample :
    modelSynthTrainingFeatures [[(0:ℚ)], [2]] [[1]] ≠
      specSynthTrainingFeatures [[(0:ℚ)], [8]] [[0], [2]] := by
  rw [modelSynthTrainingFeatures_pair, specSynthTrainingFeatures_pair]
  decide

/-- C2, amended.  The synthetic-data classifier is fit on synthetic features
standardized with statistics fitted on the synthetic features themselves
(`standardise_data(X_synth, X_test)` fits on its first argument), and the test
features it predicts on are re-standardized with the same synthetic-fitted
statistics; the real-fitted standardization of the synthetic data (line 191)
is not the one used for model fitting.  The second conjunct shows the two
scalings disagree on concrete data, so the distinction is substantive. -/
theorem c2_synth_model_scaled_by_synth_stats :
    (∀ X_synth X_test : List (List ℚ),
      modelSynthTrainingFeatures X_synth X_test =
        scalerTransform (scalerFit X_synth) X_synth ∧
      modelSynthTestFeatures X_synth X_test =
        scalerTransform (scalerFit X_synth) X_test) ∧
    (∃ X_train X_synth X_test : List (List ℚ),
      modelSynthTrainingFeatures X_synth X_test ≠
        specSynthTrainingFeatures X_train X_synth) := by
  constructor
  · intro X_synth X_test
    exact ⟨rfl, rfl⟩
  · refine ⟨[[0], [8]], [[0], [2]], [[1]], ?_⟩
    rw [modelSynthTrainingFeatures_pair, specSynthTrainingFeatures_pair]
    decide

/-- One synthetic record of `synth_df` before the distance columns are added:
the (repaired) feature values and the `stroke` label. -/
structure SynthRow where
  features : List ℚ
  label : ℚ
deriving DecidableEq, Inhabited

/-- One row of `synth_df` after line 224: the record together with the value
stored in its `distance_to_closest_real` column. -/
structure ScoredRow where
  row : SynthRow
  dist : ℚ
deriving DecidableEq, Inhabited

/-- Reordering a list by a list of positions; with `π` a permutation of
`List.range l.length` this is the model of `DataFrame.sample(frac=1)` (pandas
returns the rows in a uniformly random order — the drawn order is the
oracle `π`). -/
def applyPerm {α : Type} [Inhabited α] (π : List Nat) (l : List α) : List α :=
  π.map (fun i => l.getD i default)

/-- Line 223, `synth_df['distance_to_closest_real'] = list(dists.flatten())`:
assigning a plain list to a column stores the values positionally, pairing the
k-th row of the (already shuffled) frame with `dists[k]` — which is the
nearest-real distance of the k-th row of the ORIGINAL, unshuffled synthetic
array `X_synthetic`, not of the row it lands on. -/
def attachDistances (shuffled : List SynthRow) (dists : List ℚ) : List ScoredRow :=
  (shuffled.zip dists).map (fun p => ⟨p.1, p.2⟩)

/-- The near-duplicate threshold of the script (line 227). -/
def duplicateThreshold : ℚ := mkRat 1 1000

/-- The trim fraction of the script (line 232). -/
def proportion_to_remove : ℚ := mkRat 1 10

/-- Lines 227-229: keep exactly the rows whose stored distance is not below
the threshold (`identical == False`). -/
def removeIdentical (thr : ℚ) (rs : List ScoredRow) : List ScoredRow :=
  rs.filter (fun r => decide (¬ r.dist < thr))

/-- One insertion step of an insertion sort by stored distance, descending;
stands in for `sort_values(..., ascending=False)` (ties in an unspecified
order, as in pandas' default quicksort). -/
def insertDesc (r : ScoredRow) : List ScoredRow → List ScoredRow
  | [] => [r]
  | x :: xs => if x.dist < r.dist then r :: x :: xs else x :: insertDesc r xs

/-- Model of `synth_df.sort_values('distance_to_closest_real', ascending=False)`. -/
def sortByDistDesc (rs : List ScoredRow) : List ScoredRow :=
  rs.foldr insertDesc []

/-- Line 240, `number_to_keep = int(len(synth_by_distance) * (1 - proportion_to_remove))`:
for a fraction in `[0,1]` the Python truncation toward zero is the floor. -/
def trimCount (n : Nat) (f : ℚ) : Nat := (((n : ℚ) * (1 - f)).floor).toNat

/-- Lines 236-241: sort by stored distance descending and keep the head. -/
def limitData (f : ℚ) (rs : List ScoredRow) : List ScoredRow :=
  (sortByDistDesc rs).take (trimCount rs.length f)

/-- The quality-filter portion of the script (lines 188 and 217-241) on the
repaired synthetic rows: shuffle (`sample(frac=1)`, oracle `π`), attach the
nearest-real distances positionally (`dists` is indexed by ORIGINAL row
position: `dists[i]` is the distance of `rows[i]` to its nearest real
neighbour, as produced by the external `NearestNeighbors` on the unshuffled
synthetic array), drop stored distances below the threshold, sort by stored
distance and trim. -/
def qualityFilterScript (π : List Nat) (rows : List SynthRow) (dists : List ℚ)
    (thr f : ℚ) : List ScoredRow :=
  limitData f (removeIdentical thr (attachDistances (applyPerm π rows) dists))

/-- C6, evaluation at a failing input.  Ten synthetic rows `r0 .. r9` with
features `[0] .. [9]` and true nearest-real distances
`dists = [1/2000, 1, 2, ..., 9]` (so `r0` is a near-duplicate: its distance
1/2000 is below the threshold 1/1000).  The shuffle draws the order that swaps
`r0` and `r9`.  The positional column assignment then stores distance 1/2000
on `r9` and distance 9 on `r0`; the filter drops `r9` and the trim drops `r1`,
and the near-duplicate `r0` IS returned (with the borrowed stored distance 9),
even though its true nearest-real distance 1/2000 is strictly below the
threshold. -/
theorem c6_near_duplicate_returned :
    ((⟨⟨[0], 0⟩, 9⟩ : ScoredRow) ∈ qualityFilterScript
      [9, 1, 2, 3, 4, 5, 6, 7, 8, 0]
      [⟨[0], 0⟩, ⟨[1], 0⟩, ⟨[2], 0⟩, ⟨[3], 0⟩, ⟨[4], 0⟩,
        ⟨[5], 0⟩, ⟨[6], 0⟩, ⟨[7], 0⟩, ⟨[8], 0⟩, ⟨[9], 0⟩]
      [mkRat 1 2000, 1, 2, 3, 4, 5, 6, 7, 8, 9]
      duplicateThreshold proportion_to_remove) ∧
    [mkRat 1 2000, (1:ℚ), 2, 3, 4, 5, 6, 7, 8, 9].getD 0 0 < duplicateThreshold := by
  with_unfolding_all decide

/-- C7, evaluation at a failing input (same input as the C6 evaluation, read
for the trimming step).  After duplicate rejection 9 rows remain and the trim
keeps `int(9 * 0.9) = 8` of them — the count is as specified — but because the
stored distances were attached positionally after the shuffle, the trim's sort
ranks `r0` by the borrowed distance 9: the output keeps `r0`, whose true
nearest-real distance is 1/2000, and discards `r1`, whose true nearest-real
distance is 1.  The kept records are therefore NOT the `(1 - trimFraction)`
fraction with the largest nearest-real distances. -/
theorem c7_trim_misaligned :
    ((qualityFilterScript
      [9, 1, 2, 3, 4, 5, 6, 7, 8, 0]
      [⟨[0], 0⟩, ⟨[1], 0⟩, ⟨[2], 0⟩, ⟨[3], 0⟩, ⟨[4], 0⟩,
        ⟨[5], 0⟩, ⟨[6], 0⟩, ⟨[7], 0⟩, ⟨[8], 0⟩, ⟨[9], 0⟩]
      [mkRat 1 2000, 1, 2, 3, 4, 5, 6, 7, 8, 9]
      duplicateThreshold proportion_to_remove).length = 8) ∧
    ((⟨⟨[0], 0⟩, 9⟩ : ScoredRow) ∈ qualityFilterScript
      [9, 1, 2, 3, 4, 5, 6, 7, 8, 0]
      [⟨[0], 0⟩, ⟨[1], 0⟩, ⟨[2], 0⟩, ⟨[3], 0⟩, ⟨[4], 0⟩,
        ⟨[5], 0⟩, ⟨[6], 0⟩, ⟨[7], 0⟩, ⟨[8], 0⟩, ⟨[9], 0⟩]
      [mkRat 1 2000, 1, 2, 3, 4, 5, 6, 7, 8, 9]
      duplicateThreshold proportion_to_remove) ∧
    (∀ d : ℚ, (⟨⟨[1], 0⟩, d⟩ : ScoredRow) ∉ qualityFilterScript
      [9, 1, 2, 3, 4, 5, 6, 7, 8, 0]
      [⟨[0], 0⟩, ⟨[1], 0⟩, ⟨[2], 0⟩, ⟨[3], 0⟩, ⟨[4], 0⟩,
        ⟨[5], 0⟩, ⟨[6], 0⟩, ⟨[7], 0⟩, ⟨[8], 0⟩, ⟨[9], 0⟩]
      [mkRat 1 2000, 1, 2, 3, 4, 5, 6, 7, 8, 9]
      duplicateThreshold proportion_to_remove) ∧
    [mkRat 1 2000, (1:ℚ), 2, 3, 4, 5, 6, 7, 8, 9].getD 0 0 <
      [mkRat 1 2000, (1:ℚ), 2, 3, 4, 5, 6, 7, 8, 9].getD 1 0 := by
  refine ⟨by with_unfolding_all decide, by with_unfolding_all decide, ?_,
    by with_unfolding_all decide⟩
  intro d hd
  have hrow : ∀ x ∈ qualityFilterScript
      [9, 1, 2, 3, 4, 5, 6, 7, 8, 0]
      [⟨[0], 0⟩, ⟨[1], 0⟩, ⟨[2], 0⟩, ⟨[3], 0⟩, ⟨[4], 0⟩,
        ⟨[5], 0⟩, ⟨[6], 0⟩, ⟨[7], 0⟩, ⟨[8], 0⟩, ⟨[9], 0⟩]
      [mkRat 1 2000, 1, 2, 3, 4, 5, 6, 7, 8, 9]
      duplicateThreshold proportion_to_remove, x.row ≠ (⟨[1], 0⟩ : SynthRow) := by
    with_unfolding_all decide
  exact hrow _ hd rfl

/-- The rows of `synth_df` belonging to class `c`
(`synth_df[synth_df['stroke'] == c]`). -/
def classPool (c : ℚ) (rs : List ScoredRow) : List ScoredRow :=
  rs.filter (fun r => decide (r.row.label = c))

/-- Number of rows of class `c`. -/
def classCount (c : ℚ) (rs : List ScoredRow) : Nat :=
  rs.countP (fun r => decide (r.row.label = c))

/-- The `ValueError` raised by `DataFrame.sample(n)` when `n` exceeds the
population; the concrete realisation of the spec error
`InsufficientSyntheticSamplesError`. -/
def pandasSampleTooLargeMsg : String :=
  "ValueError: cannot take a larger sample than population when replace is False"

/-- Model of `df.sample(n)`: `n` rows drawn uniformly without replacement — modelled as
the first `n` rows of an oracle-permuted copy — failing when `n` exceeds the
population. -/
def pdSample (π : List Nat) (n : Nat) (rs : List ScoredRow) :
    Except String (List ScoredRow) :=
  if n ≤ rs.length then .ok ((applyPerm π rs).take n) else .error pandasSampleTooLargeMsg

/-- Lines 247-257: sample `number_died` rows from the class-0 pool and
`number_survived` rows from the class-1 pool of the filtered synthetic data,
concatenate, and shuffle. -/
def rebalanceScript (π0 π1 πf : List Nat) (rs : List ScoredRow)
    (number_died number_survived : Nat) : Except String (List ScoredRow) :=
  match pdSample π0 number_died (classPool 0 rs) with
  | .error e => .error e
  | .ok died =>
    match pdSample π1 number_survived (classPool 1 rs) with
    | .error e => .error e
    | .ok surv => .ok (applyPerm πf (died ++ surv))

theorem range_map_getD {α : Type} [Inhabited α] (l : List α) :
    (List.range l.length).map (fun i => l.getD i default) = l := by
  apply List.ext_get (by simp)
  intro n h1 h2
  simp only [List.get_eq_getElem, List.getElem_map, List.getElem_range]
  exact List.getD_eq_getElem _ _ h2

theorem applyPerm_perm {α : Type} [Inhabited α] (π : List Nat) (l : List α)
    (hπ : π.Perm (List.range l.length)) : (applyPerm π l).Perm l := by
  have h1 : (applyPerm π l).Perm ((List.range l.length).map (fun i => l.getD i default)) :=
    hπ.map _
  rwa [range_map_getD] at h1

theorem applyPerm_length {α : Type} [Inhabited α] (π : List Nat) (l : List α)
    (hπ : π.Perm (List.range l.length)) : (applyPerm π l).length = l.length :=
  (applyPerm_perm π l hπ).length_eq

theorem mem_classPool_label (c : ℚ) (rs : List ScoredRow) (r : ScoredRow)
    (h : r ∈ classPool c rs) : r.row.label = c := by
  have := (List.mem_filter.mp h).2
  simpa using this

theorem count_classPool_le (c : ℚ) (rs : List ScoredRow) (r : ScoredRow) :
    (classPool c rs).count r ≤ rs.count r :=
  (List.filter_sublist rs).count_le r

theorem count_classPool_eq_zero (c : ℚ) (rs : List ScoredRow) (r : ScoredRow)
    (h : r.row.label ≠ c) : (classPool c rs).count r = 0 :=
  List.count_eq_zero.mpr (fun hmem => h (mem_classPool_label c rs r hmem))

/-- Success case of the per-class sampling: with permutation oracles and
sufficient pools, the rebalanced output exists and contains exactly
`number_died` class-0 rows and `number_survived` class-1 rows, each drawn
without replacement (no row occurs more often than in the pool). -/
theorem rebalanceScript_ok (π0 π1 πf : List Nat) (rs : List ScoredRow)
    (nd ns : Nat)
    (hπ0 : π0.Perm (List.range (classPool 0 rs).length))
    (hπ1 : π1.Perm (List.range (classPool 1 rs).length))
    (hπf : πf.Perm (List.range (nd + ns)))
    (hnd : nd ≤ (classPool 0 rs).length)
    (hns : ns ≤ (classPool 1 rs).length) :
    ∃ out, rebalanceScript π0 π1 πf rs nd ns = .ok out ∧
      classCount 0 out = nd ∧ classCount 1 out = ns ∧
      out.length = nd + ns ∧
      ∀ r : ScoredRow, out.count r ≤ rs.count r := by
  have hd : pdSample π0 nd (classPool 0 rs) =
      .ok ((applyPerm π0 (classPool 0 rs)).take nd) := by
    rw [pdSample, if_pos hnd]
  have hs : pdSample π1 ns (classPool 1 rs) =
      .ok ((applyPerm π1 (classPool 1 rs)).take ns) := by
    rw [pdSample, if_pos hns]
  have hdlen : ((applyPerm π0 (classPool 0 rs)).take nd).length = nd := by
    rw [List.length_take, applyPerm_length _ _ hπ0]
    exact Nat.min_eq_left hnd
  have hslen : ((applyPerm π1 (classPool 1 rs)).take ns).length = ns := by
    rw [List.length_take, applyPerm_length _ _ hπ1]
    exact Nat.min_eq_left hns
  have hdmem : ∀ r ∈ (applyPerm π0 (classPool 0 rs)).take nd, r.row.label = 0 := by
    intro r hr
    exact mem_classPool_label 0 rs r
      (((applyPerm_perm _ _ hπ0).mem_iff).mp ((List.take_sublist _ _).mem hr))
  have hsmem : ∀ r ∈ (applyPerm π1 (classPool 1 rs)).take ns, r.row.label = 1 := by
    intro r hr
    exact mem_classPool_label 1 rs r
      (((applyPerm_perm _ _ hπ1).mem_iff).mp ((List.take_sublist _ _).mem hr))
  have happlen : ((applyPerm π0 (classPool 0 rs)).take nd ++
      (applyPerm π1 (classPool 1 rs)).take ns).length = nd + ns := by
    rw [List.length_append, hdlen, hslen]
  have hout : (applyPerm πf ((applyPerm π0 (classPool 0 rs)).take nd ++
      (applyPerm π1 (classPool 1 rs)).take ns)).Perm
      ((applyPerm π0 (classPool 0 rs)).take nd ++
        (applyPerm π1 (classPool 1 rs)).take ns) := by
    refine applyPerm_perm _ _ ?_
    rwa [happlen]
  refine ⟨applyPerm πf ((applyPerm π0 (classPool 0 rs)).take nd ++
      (applyPerm π1 (classPool 1 rs)).take ns),
    by simp only [rebalanceScript, hd, hs], ?_, ?_, ?_, ?_⟩
  · rw [classCount, hout.countP_eq, List.countP_append]
    have h1 : List.countP (fun r => decide (r.row.label = 0))
        ((applyPerm π0 (classPool 0 rs)).take nd) = nd := by
      rw [List.countP_eq_length.mpr (fun a ha => by simpa using hdmem a ha)]
      exact hdlen
    have h2 : List.countP (fun r => decide (r.row.label = 0))
        ((applyPerm π1 (classPool 1 rs)).take ns) = 0 := by
      rw [List.countP_eq_zero.mpr]
      intro a ha
      simp [hsmem a ha]
    rw [h1, h2]
    omega
  · rw [classCount, hout.countP_eq, List.countP_append]
    have h1 : List.countP (fun r => decide (r.row.label = 1))
        ((applyPerm π0 (classPool 0 rs)).take nd) = 0 := by
      rw [List.countP_eq_zero.mpr]
      intro a ha
      simp [hdmem a ha]
    have h2 : List.countP (fun r => decide (r.row.label = 1))
        ((applyPerm π1 (classPool 1 rs)).take ns) = ns := by
      rw [List.countP_eq_length.mpr (fun a ha => by simpa using hsmem a ha)]
      exact hslen
    rw [h1, h2]
    omega
  · rw [hout.length_eq, happlen]
  · intro r
    have hcd : ((applyPerm π0 (classPool 0 rs)).take nd).count r ≤
        (classPool 0 rs).count r :=
      le_trans ((List.take_sublist _ _).count_le r)
        (le_of_eq ((applyPerm_perm _ _ hπ0).count_eq r))
    have hcs : ((applyPerm π1 (classPool 1 rs)).take ns).count r ≤
        (classPool 1 rs).count r :=
      le_trans ((List.take_sublist _ _).count_le r)
        (le_of_eq ((applyPerm_perm _ _ hπ1).count_eq r))
    rw [hout.count_eq, List.count_append]
    by_cases h0 : r.row.label = 0
    · have hz : (classPool 1 rs).count r = 0 :=
        count_classPool_eq_zero 1 rs r (by rw [h0]; norm_num)
      have := count_classPool_le 0 rs r
      omega
    · by_cases h1 : r.row.label = 1
      · have hz : (classPool 0 rs).count r = 0 := count_classPool_eq_zero 0 rs r (by rw [h1]; norm_num)
        have := count_classPool_le 1 rs r
        omega
      · have hz0 : (classPool 0 rs).count r = 0 := count_classPool_eq_zero 0 rs r h0
        have hz1 : (classPool 1 rs).count r = 0 := count_classPool_eq_zero 1 rs r h1
        omega

/-- Failure case: if either class pool is smaller than its requested count,
the per-class sampling raises. -/
theorem rebalanceScript_error (π0 π1 πf : List Nat) (rs : List ScoredRow)
    (nd ns : Nat)
    (h : (classPool 0 rs).length < nd ∨ (classPool 1 rs).length < ns) :
    rebalanceScript π0 π1 πf rs nd ns = .error pandasSampleTooLargeMsg := by
  rcases h with h | h
  · have hd : pdSample π0 nd (classPool 0 rs) = .error pandasSampleTooLargeMsg := by
      rw [pdSample, if_neg (by omega)]
    simp only [rebalanceScript, hd]
  · have hs : pdSample π1 ns (classPool 1 rs) = .error pandasSampleTooLargeMsg := by
      rw [pdSample, if_neg (by omega)]
    cases hd : pdSample π0 nd (classPool 0 rs) with
    | error e =>
      have : e = pandasSampleTooLargeMsg := by
        rw [pdSample] at hd
        split_ifs at hd with hc
        simpa using hd.symm
      simp only [rebalanceScript, hd, this]
    | ok died => simp only [rebalanceScript, hd, hs]

/-- C8: with permutation oracles for the three `sample` calls, the Rebalancer
returns, for every class `c`, exactly the requested number of class-`c`
records — drawn without replacement from that class's filtered pool (no row
is used more often than it occurs in the pool) — and it fails with the
`sample` `ValueError` (the spec's `InsufficientSyntheticSamplesError`) exactly
when some class's pool is smaller than its requested count. -/
theorem c8_rebalancer_exact_counts (π0 π1 πf : List Nat) (rs : List ScoredRow)
    (nd ns : Nat)
    (hπ0 : π0.Perm (List.range (classPool 0 rs).length))
    (hπ1 : π1.Perm (List.range (classPool 1 rs).length))
    (hπf : πf.Perm (List.range (nd + ns))) :
    ((nd ≤ (classPool 0 rs).length ∧ ns ≤ (classPool 1 rs).length) →
      ∃ out, rebalanceScript π0 π1 πf rs nd ns = .ok out ∧
        classCount 0 out = nd ∧ classCount 1 out = ns ∧ out.length = nd + ns ∧
        ∀ r : ScoredRow, out.count r ≤ rs.count r) ∧
    (((classPool 0 rs).length < nd ∨ (classPool 1 rs).length < ns) →
      rebalanceScript π0 π1 πf rs nd ns = .error pandasSampleTooLargeMsg) :=
  ⟨fun h => rebalanceScript_ok π0 π1 πf rs nd ns hπ0 hπ1 hπf h.1 h.2,
   fun h => rebalanceScript_error π0 π1 πf rs nd ns h⟩

/-- C8, witness: three filtered rows (two of class 0, one of class 1),
requesting one row of each class. -/
theorem c8_rebalancer_exact_counts_witness :
    ([1, 0] : List Nat).Perm (List.range
      (classPool 0 [(⟨⟨[0], 0⟩, 1⟩ : ScoredRow), ⟨⟨[1], 0⟩, 2⟩, ⟨⟨[2], 1⟩, 3⟩]).length) ∧
    ([0] : List Nat).Perm (List.range
      (classPool 1 [(⟨⟨[0], 0⟩, 1⟩ : ScoredRow), ⟨⟨[1], 0⟩, 2⟩, ⟨⟨[2], 1⟩, 3⟩]).length) ∧
    ([1, 0] : List Nat).Perm (List.range (1 + 1)) ∧
    (1 ≤ (classPool 0 [(⟨⟨[0], 0⟩, 1⟩ : ScoredRow), ⟨⟨[1], 0⟩, 2⟩, ⟨⟨[2], 1⟩, 3⟩]).length ∧
      1 ≤ (classPool 1 [(⟨⟨[0], 0⟩, 1⟩ : ScoredRow), ⟨⟨[1], 0⟩, 2⟩, ⟨⟨[2], 1⟩, 3⟩]).length) ∧
    (∃ out, rebalanceScript [1, 0] [0] [1, 0]
        [(⟨⟨[0], 0⟩, 1⟩ : ScoredRow), ⟨⟨[1], 0⟩, 2⟩, ⟨⟨[2], 1⟩, 3⟩] 1 1 = .ok out ∧
      classCount 0 out = 1 ∧ classCount 1 out = 1 ∧ out.length = 1 + 1 ∧
      ∀ r : ScoredRow, out.count r ≤
        ([(⟨⟨[0], 0⟩, 1⟩ : ScoredRow), ⟨⟨[1], 0⟩, 2⟩, ⟨⟨[2], 1⟩, 3⟩] : List ScoredRow).count r) := by
  have h0 : ([1, 0] : List Nat).Perm (List.range
      (classPool 0 [(⟨⟨[0], 0⟩, 1⟩ : ScoredRow), ⟨⟨[1], 0⟩, 2⟩, ⟨⟨[2], 1⟩, 3⟩]).length) := by
    decide
  have h1 : ([0] : List Nat).Perm (List.range
      (classPool 1 [(⟨⟨[0], 0⟩, 1⟩ : ScoredRow), ⟨⟨[1], 0⟩, 2⟩, ⟨⟨[2], 1⟩, 3⟩]).length) := by
    decide
  have hf : ([1, 0] : List Nat).Perm (List.range (1 + 1)) := by decide
  exact ⟨h0, h1, hf, ⟨by decide, by decide⟩,
    (c8_rebalancer_exact_counts [1, 0] [0] [1, 0] _ 1 1 h0 h1 hf).1 ⟨by decide, by decide⟩⟩

theorem countLabel_perm (y z : List ℚ) (c : ℚ) (h : y.Perm z) :
    countLabel y c = countLabel z c := by
  rw [countLabel, countLabel, ← List.countP_eq_length_filter, ← List.countP_eq_length_filter]
  exact h.countP_eq _

/-- The module-level repair applied to one raw synthetic feature row (one-hot
columns untouched, integer columns rounded, binary columns clipped and
rounded; see `moduleRepairValue`). -/
def repairRow (s : Schema) (r : List ℚ) : List ℚ :=
  (List.range r.length).map (fun i => moduleRepairValue s (fun j => r.getD j 0) i)

/-- Lines 156-185: build `synth_df` from the raw synthetic array, apply the
module-level repair, and append the labels. -/
def buildRows (s : Schema) (Xs : List (List ℚ)) (ys : List ℚ) : List SynthRow :=
  (Xs.zip ys).map (fun p => ⟨repairRow s p.1, p.2⟩)

/-- The filtered synthetic pool the Rebalancer samples from, as a function of
the oracles: SMOTE synthetic rows for both classes (twice the training class
counts, line 130), repaired, shuffled, scored and filtered. -/
def scriptFilteredPool (gen : ℚ → Nat → List ℚ) (s : Schema) (πsh : List Nat)
    (dists : List ℚ) (y_train : List ℚ) : List ScoredRow :=
  qualityFilterScript πsh
    (buildRows s
      ((List.range (2 * countLabel y_train 0)).map (gen 0) ++
        (List.range (2 * countLabel y_train 1)).map (gen 1))
      (List.replicate (2 * countLabel y_train 0) 0 ++
        List.replicate (2 * countLabel y_train 1) 1))
    dists duplicateThreshold proportion_to_remove

/-- The module-level pipeline of the script, from the class counts taken on
the FULL dataset (lines 115-116, before the train/test split) to the final
rebalanced `synth_df` (line 257): generate synthetic data from the training
partition with per-class request `original_frequency * 2` (lines 129-134),
repair, shuffle, attach distances, filter, trim, and resample
`number_died`/`number_survived` rows per class — where those two counts come
from the full dataset `data`, not from `y_train`. -/
def scriptPipeline (gen : ℚ → Nat → List ℚ) (s : Schema) (πsh π0 π1 πf : List Nat)
    (dists : List ℚ) (dataY : List ℚ) (X_train : List (List ℚ)) (y_train : List ℚ) :
    Except String (List ScoredRow) :=
  match make_synthetic_data_smote gen X_train y_train
      (2 * (countLabel y_train 0 : ℤ), 2 * (countLabel y_train 1 : ℤ)) with
  | .error e => .error e
  | .ok p =>
    rebalanceScript π0 π1 πf
      (qualityFilterScript πsh (buildRows s p.1 p.2) dists
        duplicateThreshold proportion_to_remove)
      (countLabel dataY 0) (countLabel dataY 1)

/-- C10: the per-class counts the Rebalancer samples are the class counts of
the ENTIRE real dataset (`number_died`/`number_survived`, computed on `data`
before the split), not those of the training partition: whenever the pipeline
succeeds, the output contains `countLabel dataY c` records of class `c`, and
under the split hypothesis this count is the sum of the train and test
partition counts. -/
theorem c10_rebalance_targets_full_dataset (gen : ℚ → Nat → List ℚ) (s : Schema)
    (πsh π0 π1 πf : List Nat) (dists : List ℚ)
    (dataY : List ℚ) (X_train : List (List ℚ)) (y_train y_test : List ℚ)
    (hsplit : (y_train ++ y_test).Perm dataY)
    (h6a : 6 ≤ countLabel y_train 0) (h6b : 6 ≤ countLabel y_train 1)
    (hπ0 : π0.Perm (List.range
      (classPool 0 (scriptFilteredPool gen s πsh dists y_train)).length))
    (hπ1 : π1.Perm (List.range
      (classPool 1 (scriptFilteredPool gen s πsh dists y_train)).length))
    (hπf : πf.Perm (List.range (countLabel dataY 0 + countLabel dataY 1)))
    (hp0 : countLabel dataY 0 ≤
      (classPool 0 (scriptFilteredPool gen s πsh dists y_train)).length)
    (hp1 : countLabel dataY 1 ≤
      (classPool 1 (scriptFilteredPool gen s πsh dists y_train)).length) :
    ∃ out, scriptPipeline gen s πsh π0 π1 πf dists dataY X_train y_train = .ok out ∧
      classCount 0 out = countLabel dataY 0 ∧
      classCount 1 out = countLabel dataY 1 ∧
      countLabel dataY 0 = countLabel y_train 0 + countLabel y_test 0 ∧
      countLabel dataY 1 = countLabel y_train 1 + countLabel y_test 1 := by
  have hsm := make_synthetic_data_smote_ok gen X_train y_train
    (2 * (countLabel y_train 0 : ℤ), 2 * (countLabel y_train 1 : ℤ))
    (by omega) (by omega) (by omega) (by omega)
    (Or.inr (by norm_num [smoteKNeighbors]; omega))
    (Or.inr (by norm_num [smoteKNeighbors]; omega))
  have ht0 : (2 * (countLabel y_train 0 : ℤ)).toNat = 2 * countLabel y_train 0 := by omega
  have ht1 : (2 * (countLabel y_train 1 : ℤ)).toNat = 2 * countLabel y_train 1 := by omega
  rw [ht0, ht1] at hsm
  obtain ⟨out, hok, hc0, hc1, _, _⟩ := rebalanceScript_ok π0 π1 πf
    (scriptFilteredPool gen s πsh dists y_train)
    (countLabel dataY 0) (countLabel dataY 1) hπ0 hπ1 hπf hp0 hp1
  refine ⟨out, ?_, hc0, hc1, ?_, ?_⟩
  · rw [scriptPipeline]
    rw [hsm]
    exact hok
  · rw [← countLabel_perm _ _ _ hsplit, countLabel_append]
  · rw [← countLabel_perm _ _ _ hsplit, countLabel_append]

/-- C10, witness: a full dataset with 8 class-0 and 7 class-1 records whose
training partition has 6 of each class; the pipeline succeeds and the output
class counts are 8 and 7 — the FULL-dataset counts, which differ from the
training-partition counts (6 and 6). -/
theorem c10_rebalance_targets_full_dataset_witness :
    (([(0:ℚ), 0, 0, 0, 0, 0, 1, 1, 1, 1, 1, 1] ++ [(0:ℚ), 0, 1]).Perm [(0:ℚ), 0, 0, 0, 0, 0, 1, 1, 1, 1, 1, 1, 0, 0, 1]) ∧
    (6 ≤ countLabel [(0:ℚ), 0, 0, 0, 0, 0, 1, 1, 1, 1, 1, 1] 0) ∧
    (6 ≤ countLabel [(0:ℚ), 0, 0, 0, 0, 0, 1, 1, 1, 1, 1, 1] 1) ∧
    ((List.range 9).Perm (List.range (classPool 0 (scriptFilteredPool genNil (Schema.mk [] [] []) (List.range 24) [(1:ℚ), 2, 3, 4, 5, 6, 7, 8, 9, 10, 11, 12, 13, 14, 15, 16, 17, 18, 19, 20, 21, 22, 23, 24] [(0:ℚ), 0, 0, 0, 0, 0, 1, 1, 1, 1, 1, 1])).length)) ∧
    ((List.range 12).Perm (List.range (classPool 1 (scriptFilteredPool genNil (Schema.mk [] [] []) (List.range 24) [(1:ℚ), 2, 3, 4, 5, 6, 7, 8, 9, 10, 11, 12, 13, 14, 15, 16, 17, 18, 19, 20, 21, 22, 23, 24] [(0:ℚ), 0, 0, 0, 0, 0, 1, 1, 1, 1, 1, 1])).length)) ∧
    ((List.range 15).Perm (List.range (countLabel [(0:ℚ), 0, 0, 0, 0, 0, 1, 1, 1, 1, 1, 1, 0, 0, 1] 0 + countLabel [(0:ℚ), 0, 0, 0, 0, 0, 1, 1, 1, 1, 1, 1, 0, 0, 1] 1))) ∧
    (countLabel [(0:ℚ), 0, 0, 0, 0, 0, 1, 1, 1, 1, 1, 1, 0, 0, 1] 0 ≤ (classPool 0 (scriptFilteredPool genNil (Schema.mk [] [] []) (List.range 24) [(1:ℚ), 2, 3, 4, 5, 6, 7, 8, 9, 10, 11, 12, 13, 14, 15, 16, 17, 18, 19, 20, 21, 22, 23, 24] [(0:ℚ), 0, 0, 0, 0, 0, 1, 1, 1, 1, 1, 1])).length) ∧
    (countLabel [(0:ℚ), 0, 0, 0, 0, 0, 1, 1, 1, 1, 1, 1, 0, 0, 1] 1 ≤ (classPool 1 (scriptFilteredPool genNil (Schema.mk [] [] []) (List.range 24) [(1:ℚ), 2, 3, 4, 5, 6, 7, 8, 9, 10, 11, 12, 13, 14, 15, 16, 17, 18, 19, 20, 21, 22, 23, 24] [(0:ℚ), 0, 0, 0, 0, 0, 1, 1, 1, 1, 1, 1])).length) ∧
    (countLabel [(0:ℚ), 0, 0, 0, 0, 0, 1, 1, 1, 1, 1, 1, 0, 0, 1] 0 ≠ countLabel [(0:ℚ), 0, 0, 0, 0, 0, 1, 1, 1, 1, 1, 1] 0) ∧
    (∃ out, scriptPipeline genNil (Schema.mk [] [] []) (List.range 24) (List.range 9)
        (List.range 12) (List.range 15) [(1:ℚ), 2, 3, 4, 5, 6, 7, 8, 9, 10, 11, 12, 13, 14, 15, 16, 17, 18, 19, 20, 21, 22, 23, 24] [(0:ℚ), 0, 0, 0, 0, 0, 1, 1, 1, 1, 1, 1, 0, 0, 1]
        (List.replicate 12 [(0:ℚ)]) [(0:ℚ), 0, 0, 0, 0, 0, 1, 1, 1, 1, 1, 1] = .ok out ∧
      classCount 0 out = countLabel [(0:ℚ), 0, 0, 0, 0, 0, 1, 1, 1, 1, 1, 1, 0, 0, 1] 0 ∧
      classCount 1 out = countLabel [(0:ℚ), 0, 0, 0, 0, 0, 1, 1, 1, 1, 1, 1, 0, 0, 1] 1 ∧
      countLabel [(0:ℚ), 0, 0, 0, 0, 0, 1, 1, 1, 1, 1, 1, 0, 0, 1] 0 = countLabel [(0:ℚ), 0, 0, 0, 0, 0, 1, 1, 1, 1, 1, 1] 0 + countLabel [(0:ℚ), 0, 1] 0 ∧
      countLabel [(0:ℚ), 0, 0, 0, 0, 0, 1, 1, 1, 1, 1, 1, 0, 0, 1] 1 = countLabel [(0:ℚ), 0, 0, 0, 0, 0, 1, 1, 1, 1, 1, 1] 1 + countLabel [(0:ℚ), 0, 1] 1) := by
  have h1 : ([(0:ℚ), 0, 0, 0, 0, 0, 1, 1, 1, 1, 1, 1] ++ [(0:ℚ), 0, 1]).Perm [(0:ℚ), 0, 0, 0, 0, 0, 1, 1, 1, 1, 1, 1, 0, 0, 1] := by
    with_unfolding_all decide
  have h2 : 6 ≤ countLabel [(0:ℚ), 0, 0, 0, 0, 0, 1, 1, 1, 1, 1, 1] 0 := by with_unfolding_all decide
  have h3 : 6 ≤ countLabel [(0:ℚ), 0, 0, 0, 0, 0, 1, 1, 1, 1, 1, 1] 1 := by with_unfolding_all decide
  have h4 : (List.range 9).Perm (List.range (classPool 0 (scriptFilteredPool genNil (Schema.mk [] [] []) (List.range 24) [(1:ℚ), 2, 3, 4, 5, 6, 7, 8, 9, 10, 11, 12, 13, 14, 15, 16, 17, 18, 19, 20, 21, 22, 23, 24] [(0:ℚ), 0, 0, 0, 0, 0, 1, 1, 1, 1, 1, 1])).length) := by
    with_unfolding_all decide
  have h5 : (List.range 12).Perm (List.range (classPool 1 (scriptFilteredPool genNil (Schema.mk [] [] []) (List.range 24) [(1:ℚ), 2, 3, 4, 5, 6, 7, 8, 9, 10, 11, 12, 13, 14, 15, 16, 17, 18, 19, 20, 21, 22, 23, 24] [(0:ℚ), 0, 0, 0, 0, 0, 1, 1, 1, 1, 1, 1])).length) := by
    with_unfolding_all decide
  have h6 : (List.range 15).Perm (List.range (countLabel [(0:ℚ), 0, 0, 0, 0, 0, 1, 1, 1, 1, 1, 1, 0, 0, 1] 0 + countLabel [(0:ℚ), 0, 0, 0, 0, 0, 1, 1, 1, 1, 1, 1, 0, 0, 1] 1)) := by
    with_unfolding_all decide
  have h7 : countLabel [(0:ℚ), 0, 0, 0, 0, 0, 1, 1, 1, 1, 1, 1, 0, 0, 1] 0 ≤ (classPool 0 (scriptFilteredPool genNil (Schema.mk [] [] []) (List.range 24) [(1:ℚ), 2, 3, 4, 5, 6, 7, 8, 9, 10, 11, 12, 13, 14, 15, 16, 17, 18, 19, 20, 21, 22, 23, 24] [(0:ℚ), 0, 0, 0, 0, 0, 1, 1, 1, 1, 1, 1])).length := by
    with_unfolding_all decide
  have h8 : countLabel [(0:ℚ), 0, 0, 0, 0, 0, 1, 1, 1, 1, 1, 1, 0, 0, 1] 1 ≤ (classPool 1 (scriptFilteredPool genNil (Schema.mk [] [] []) (List.range 24) [(1:ℚ), 2, 3, 4, 5, 6, 7, 8, 9, 10, 11, 12, 13, 14, 15, 16, 17, 18, 19, 20, 21, 22, 23, 24] [(0:ℚ), 0, 0, 0, 0, 0, 1, 1, 1, 1, 1, 1])).length := by
    with_unfolding_all decide
  exact ⟨h1, h2, h3, h4, h5, h6, h7, h8, by with_unfolding_all decide,
    c10_rebalance_targets_full_dataset genNil (Schema.mk [] [] []) (List.range 24)
      (List.range 9) (List.range 12) (List.range 15) [(1:ℚ), 2, 3, 4, 5, 6, 7, 8, 9, 10, 11, 12, 13, 14, 15, 16, 17, 18, 19, 20, 21, 22, 23, 24]
      [(0:ℚ), 0, 0, 0, 0, 0, 1, 1, 1, 1, 1, 1, 0, 0, 1] (List.replicate 12 [(0:ℚ)]) [(0:ℚ), 0, 0, 0, 0, 0, 1, 1, 1, 1, 1, 1] [(0:ℚ), 0, 1]
      h1 h2 h3 h4 h5 h6 h7 h8⟩
